import Mathlib

/-!
# SQL config validators (`plugins/sql_config_validator.h`)

A shallow embedding of the validator templates of MLDB and of the constraint
functors they are instantiated with, followed by the properties proved of them.

Conventions of the embedding

* `ML::Exception(msg)` thrown out of a `void` function is `Except.error msg`,
  a normal return is `Except.ok ()`.
* A `std::shared_ptr<T>` that the code tests for null is an `Option T`.
* A `std::function<void (ConfigType *, JsonParsingContext &)>` may have side
  effects (on the parsing context it receives by reference, or on whatever it
  captured).  Every such callable is therefore a function of a world state `W`
  returning its outcome together with the world it leaves behind; an exception
  keeps the effects made before it was thrown.
-/

namespace MLDB

/-! ## Types declared in `mldb/sql/sql_expression.h` and `types/optional.h` -/

/-- Modelled from the spec: the dynamic class of an `SqlExpression` node, which
`sql_expression.h` (not among the sources) declares.  The seven named classes
are the targets of the `dynamic_pointer_cast`s of `PlainColumnSelect`;
`Unclassified` stands for every other class. -/
inductive SqlExpressionKind
  | ReadVariableExpression
  | SelectWithinExpression
  | IsTypeExpression
  | ComparisonExpression
  | BooleanOperatorExpression
  | FunctionCallWrapper
  | ConstantExpression
  | Unclassified
  deriving DecidableEq

/-- Modelled from the spec: an `SqlExpression` node, with its dynamic class, its
surface text and the answer of its `isConstantTrue()` method. -/
structure SqlExpression where
  kind : SqlExpressionKind
  surface : String
  isConstantTrue : Bool
  deriving DecidableEq

/-- Modelled from the spec: the `ComputedVariable` select clause,
`expression AS alias`.  The inner expression is a shared pointer that the
validator only ever casts, so it may be null. -/
structure ComputedVariable where
  surface : String
  «alias» : String
  expression : Option SqlExpression
  deriving DecidableEq

/-- Modelled from the spec: an `SqlRowExpression`, one clause of a select list.
`Unclassified` stands for a clause of any class other than the three the
validators cast to. -/
inductive SqlRowExpression
  | WildcardExpression (surface : String)
  | SelectColumnExpression (surface : String)
  | ComputedVariable (cv : MLDB.ComputedVariable)
  | Unclassified (surface : String)
  deriving DecidableEq

/-- The member `surface` of the base class, as `clause->surface.rawString()`. -/
def SqlRowExpression.surface : SqlRowExpression → String
  | .WildcardExpression s => s
  | .SelectColumnExpression s => s
  | .ComputedVariable cv => cv.surface
  | .Unclassified s => s

/-- Modelled from the spec: `SelectExpression`, the ordered select clauses. -/
structure SelectExpression where
  clauses : List SqlRowExpression
  deriving DecidableEq

/-- Modelled from the spec: `TableExpression`, the from-clause with its surface
text. -/
structure TableExpression where
  surface : String
  deriving DecidableEq

/-- Modelled from the spec: `TupleExpression`, the ordered group-by
expressions. -/
structure TupleExpression where
  clauses : List SqlExpression
  deriving DecidableEq

/-- The method `TupleExpression::empty()`. -/
def TupleExpression.empty (t : TupleExpression) : Bool := t.clauses.isEmpty

/-- Modelled from the spec: `SelectStatement`.  `from` is a shared pointer the
code tests for null; `having` is dereferenced unconditionally, it always holds
an expression (constant true when the clause is omitted). -/
structure SelectStatement where
  select : SelectExpression
  «from» : Option TableExpression
  groupBy : TupleExpression
  having : SqlExpression
  deriving DecidableEq

/-- Modelled from the spec: `InputQuery`, whose statement pointer `stm` may be
null. -/
structure InputQuery where
  stm : Option SelectStatement
  deriving DecidableEq

/-- The `Optional<T>` of `types/optional.h`: absent or holding a value. -/
abbrev Optional (α : Type) := Option α

/-! ## Validators and their composition -/

/-- The effect of calling a `void` callable in world `W`: it returns or throws,
and leaves a world behind. -/
abbrev Run (W : Type) := W → Except String Unit × W

/-- A `std::function<void (ConfigType *, JsonParsingContext &)>`. -/
abbrev Validator (ConfigType W : Type) := ConfigType → Run W

/-- A `Constraint` template argument: a callable applied as
`constraint(cfg->*field, ConfigType::name)`. -/
abbrev Constraint (FieldType W : Type) := FieldType → String → Run W

/-- The static member `ConfigType::name` every config type provides. -/
class ConfigName (ConfigType : Type) where
  name : String

/-- The template `chain` (lines 22-30): call `validator1`, then `validator2`;
an exception of `validator1` leaves the lambda before `validator2` is called. -/
def chain {ConfigType W : Type} (validator1 validator2 : Validator ConfigType W) :
    Validator ConfigType W :=
  fun config context =>
    match validator1 config context with
    | (.error e, context1) => (.error e, context1)
    | (.ok (), context1) => validator2 config context1

/-- The single-constraint `validateQuery` (lines 32-41). -/
def validateQuery1 {ConfigType FieldType W : Type} [ConfigName ConfigType]
    (field : ConfigType → FieldType) (constraint : Constraint FieldType W) :
    Validator ConfigType W :=
  fun cfg context => constraint (field cfg) (ConfigName.name ConfigType) context

/-- The overload set `validateQuery(field, constraint, constraints...)`
(lines 32-58).  An empty pack selects the single-constraint template; otherwise
the variadic one chains the first constraint's lambda with the recursive call
on the rest of the pack. -/
def validateQuery {ConfigType FieldType W : Type} [ConfigName ConfigType]
    (field : ConfigType → FieldType) (constraint : Constraint FieldType W) :
    List (Constraint FieldType W) → Validator ConfigType W
  | [] => fun cfg context => constraint (field cfg) (ConfigName.name ConfigType) context
  | c :: constraints =>
    chain (fun cfg context => constraint (field cfg) (ConfigName.name ConfigType) context)
      (validateQuery field c constraints)

/-- A side-effect free functor (all those of this file) used as a
`Constraint`: the world is left as it was. -/
def pureConstraint {FieldType W : Type} (p : FieldType → String → Except String Unit) :
    Constraint FieldType W :=
  fun value name w => (p value name, w)

/-! ## `NoGroupByHaving` -/

/-- `NoGroupByHaving::operator()(const InputQuery &, const std::string &)`
(lines 66-76). -/
def NoGroupByHaving (query : InputQuery) (name : String) : Except String Unit :=
  match query.stm with
  | some stm =>
    if !stm.groupBy.empty then
      .error (name ++ " does not support groupBy clause")
    else if !stm.having.isConstantTrue then
      .error (name ++ " does not support having clause")
    else .ok ()
  | none => .ok ()

/-- `NoGroupByHaving::operator()(const Optional<InputQuery> &, ...)`
(lines 78-81). -/
def NoGroupByHaving.optional (query : Optional InputQuery) (name : String) :
    Except String Unit :=
  match query with
  | some q => NoGroupByHaving q name
  | none => .ok ()

/-! ## `MustContainFrom` -/

/-- The condition of the `if` of `MustContainFrom` (line 91):
`!query.stm || !query.stm->from || query.stm->from->surface.empty()`, with the
short-circuit evaluation that guards each dereference. -/
def MustContainFrom.lacksFrom (query : InputQuery) : Bool :=
  match query.stm with
  | none => true
  | some stm =>
    match stm.«from» with
    | none => true
    | some f => f.surface.isEmpty

/-- `MustContainFrom::operator()(const InputQuery &, const std::string &)`
(lines 89-93). -/
def MustContainFrom (query : InputQuery) (name : String) : Except String Unit :=
  if MustContainFrom.lacksFrom query then
    .error (name ++ " must contain a FROM clause")
  else .ok ()

/-- `MustContainFrom::operator()(const Optional<InputQuery> &, ...)`
(lines 95-98). -/
def MustContainFrom.optional (query : Optional InputQuery) (name : String) :
    Except String Unit :=
  match query with
  | some q => MustContainFrom q name
  | none => .ok ()

/-! ## `PlainColumnSelect` -/

namespace PlainColumnSelect

/-- Lambda `getWildcard` (lines 110-114). -/
def getWildcard (expression : SqlRowExpression) : Option SqlRowExpression :=
  match expression with
  | .WildcardExpression _ => some expression
  | _ => none

/-- Lambda `getColumnExpression` (lines 116-120). -/
def getColumnExpression (expression : SqlRowExpression) : Option SqlRowExpression :=
  match expression with
  | .SelectColumnExpression _ => some expression
  | _ => none

/-- Lambda `getComputedVariable` (lines 122-126). -/
def getComputedVariable (expression : SqlRowExpression) : Option MLDB.ComputedVariable :=
  match expression with
  | .ComputedVariable cv => some cv
  | _ => none

/-- A `std::dynamic_pointer_cast` to the expression class `k`: null on a null
pointer and on an object of another class. -/
def dynamicPointerCast (k : SqlExpressionKind) (expression : Option SqlExpression) :
    Option SqlExpression :=
  match expression with
  | some e => if e.kind = k then some e else none
  | none => none

/-- Lambda `getReadVariable` (lines 128-132). -/
def getReadVariable (expression : Option SqlExpression) : Option SqlExpression :=
  dynamicPointerCast .ReadVariableExpression expression

/-- Lambda `getWithinExpression` (lines 134-138). -/
def getWithinExpression (expression : Option SqlExpression) : Option SqlExpression :=
  dynamicPointerCast .SelectWithinExpression expression

/-- Lambda `getIsTypeExpression` (lines 140-144). -/
def getIsTypeExpression (expression : Option SqlExpression) : Option SqlExpression :=
  dynamicPointerCast .IsTypeExpression expression

/-- Lambda `getComparisonExpression` (lines 146-150). -/
def getComparisonExpression (expression : Option SqlExpression) : Option SqlExpression :=
  dynamicPointerCast .ComparisonExpression expression

/-- Lambda `getBooleanExpression` (lines 152-156). -/
def getBooleanExpression (expression : Option SqlExpression) : Option SqlExpression :=
  dynamicPointerCast .BooleanOperatorExpression expression

/-- Lambda `getFunctionCallExpression` (lines 158-162). -/
def getFunctionCallExpression (expression : Option SqlExpression) : Option SqlExpression :=
  dynamicPointerCast .FunctionCallWrapper expression

/-- Lambda `getConstantExpression` (lines 164-168). -/
def getConstantExpression (expression : Option SqlExpression) : Option SqlExpression :=
  dynamicPointerCast .ConstantExpression expression

/-- The body of the `for` loop up to the `throw` (lines 174-211): `true` when
one of the `continue` statements is reached, `false` when control falls through
to the `throw` of line 213. -/
def continues (clause : SqlRowExpression) : Bool :=
  if (getWildcard clause).isSome then true
  else if (getColumnExpression clause).isSome then true
  else
    match getComputedVariable clause with
    | some computedVariable =>
      if (getReadVariable computedVariable.expression).isSome then true
      else if (getWithinExpression computedVariable.expression).isSome then true
      else if (getIsTypeExpression computedVariable.expression).isSome then true
      else if (getComparisonExpression computedVariable.expression).isSome then true
      else if (getBooleanExpression computedVariable.expression).isSome then true
      else if (getFunctionCallExpression computedVariable.expression).isSome then true
      else if (getConstantExpression computedVariable.expression).isSome then true
      else false
    | none => false

/-- The loop `for (const auto & clause : select.clauses)` (lines 172-216). -/
def loop (name : String) : List SqlRowExpression → Except String Unit
  | [] => .ok ()
  | clause :: rest =>
    if continues clause then loop name rest
    else .error (name ++ " only accepts wildcard and column names at " ++ clause.surface)

end PlainColumnSelect

/-- `PlainColumnSelect::operator()(const InputQuery &, const std::string &)`
(lines 108-218). -/
def PlainColumnSelect (query : InputQuery) (name : String) : Except String Unit :=
  match query.stm with
  | some stm => PlainColumnSelect.loop name stm.select.clauses
  | none => .ok ()

/-- `PlainColumnSelect::operator()(const Optional<InputQuery> &, ...)`
(lines 220-223). -/
def PlainColumnSelect.optional (query : Optional InputQuery) (name : String) :
    Except String Unit :=
  match query with
  | some q => PlainColumnSelect q name
  | none => .ok ()

/-! ## `containsNamedSubSelect`, `FeaturesLabelSelect`, `ScoreLabelSelect` -/

/-- Lambda `getComputedVariable` of `containsNamedSubSelect` (lines 229-233). -/
def containsNamedSubSelect.getComputedVariable (expression : SqlRowExpression) :
    Option MLDB.ComputedVariable :=
  match expression with
  | .ComputedVariable cv => some cv
  | _ => none

/-- The loop of `containsNamedSubSelect` (lines 237-242): `true` when the
`return true` is reached, `false` when the loop runs to its end. -/
def containsNamedSubSelect.loop (name : String) : List SqlRowExpression → Bool
  | [] => false
  | clause :: rest =>
    match containsNamedSubSelect.getComputedVariable clause with
    | some computedVariable =>
      if computedVariable.«alias» == name then true
      else containsNamedSubSelect.loop name rest
    | none => containsNamedSubSelect.loop name rest

/-- The function `containsNamedSubSelect` (lines 226-245). -/
def containsNamedSubSelect (query : InputQuery) (name : String) : Bool :=
  match query.stm with
  | some stm => containsNamedSubSelect.loop name stm.select.clauses
  | none => false

/-- `FeaturesLabelSelect::operator()(const InputQuery &, const std::string &)`
(lines 253-258). -/
def FeaturesLabelSelect (query : InputQuery) (name : String) : Except String Unit :=
  if !containsNamedSubSelect query "features" || !containsNamedSubSelect query "label" then
    .error (name ++ " expects a row named 'features' and a scalar named 'label'")
  else .ok ()

/-- `FeaturesLabelSelect::operator()(const Optional<InputQuery> &, ...)`
(lines 260-263). -/
def FeaturesLabelSelect.optional (query : Optional InputQuery) (name : String) :
    Except String Unit :=
  match query with
  | some q => FeaturesLabelSelect q name
  | none => .ok ()

/-- `ScoreLabelSelect::operator()(const InputQuery &, const std::string &)`
(lines 272-277). -/
def ScoreLabelSelect (query : InputQuery) (name : String) : Except String Unit :=
  if !containsNamedSubSelect query "score" || !containsNamedSubSelect query "label" then
    .error (name ++ " expects a scalar named 'score' and a scalar named 'label'")
  else .ok ()

/-! ## `validateFunction` -/

/-- Modelled from the spec: the model-file reference `Url`, declared outside the
sources, with the answers of its methods `toString()` and `valid()`. -/
structure Url where
  toString : String
  valid : Bool
  deriving DecidableEq

/-- The members a `ConfigType` must provide to instantiate `validateFunction`:
the static `name` and the fields `functionName` and `modelFileUrl`. -/
class FunctionConfig (ConfigType : Type) extends ConfigName ConfigType where
  functionName : ConfigType → String
  modelFileUrl : ConfigType → Url

/-- The template `validateFunction` (lines 284-297). -/
def validateFunction {ConfigType W : Type} [FunctionConfig ConfigType] :
    Validator ConfigType W :=
  fun cfg context =>
    if !(FunctionConfig.functionName cfg).isEmpty &&
        !(FunctionConfig.modelFileUrl cfg).valid then
      (.error (ConfigName.name ConfigType ++
        " requires a valid modelFileUrl when specifying a functionName. modelFileUrl '" ++
        (FunctionConfig.modelFileUrl cfg).toString ++ "' is invalid."), context)
    else (.ok (), context)

/-! ## The specification's reading of the select-clause rule -/

/-- The allow-list of inner expression classes in the words of the
specification: ReadVariable, RowConstruction, TypeCheck, Comparison, BooleanOp,
FunctionCall, Constant. -/
def specAllowedInner : SqlExpressionKind → Bool
  | .ReadVariableExpression => true
  | .SelectWithinExpression => true
  | .IsTypeExpression => true
  | .ComparisonExpression => true
  | .BooleanOperatorExpression => true
  | .FunctionCallWrapper => true
  | .ConstantExpression => true
  | .Unclassified => false

/-- A clause is accepted, in the words of the specification: it is a Wildcard,
a ColumnReference, or a ComputedVariable whose inner expression is of an allowed
class. -/
def specAccepted : SqlRowExpression → Bool
  | .WildcardExpression _ => true
  | .SelectColumnExpression _ => true
  | .ComputedVariable cv =>
    match cv.expression with
    | some e => specAllowedInner e.kind
    | none => false
  | .Unclassified _ => false

/-- A clause is a row named `n`, in the words of the doc comment of
`FeaturesLabelSelect`: a ComputedVariable aliased `n` whose expression is a row
construction. -/
def specRowNamed (n : String) : SqlRowExpression → Bool
  | .ComputedVariable cv =>
    cv.«alias» == n &&
      (match cv.expression with
       | some e => e.kind == .SelectWithinExpression
       | none => false)
  | _ => false

/-- A clause is a scalar named `n`: a ComputedVariable aliased `n` whose
expression is not a row construction. -/
def specScalarNamed (n : String) : SqlRowExpression → Bool
  | .ComputedVariable cv =>
    cv.«alias» == n &&
      (match cv.expression with
       | some e => e.kind != .SelectWithinExpression
       | none => false)
  | _ => false

/-! ## The specification's reading of field binding -/

/-- Applying an ordered list of predicates to one value, in the words of the
specification: left to right, the first predicate that fails aborts the
remaining ones. -/
def applyInOrder {FieldType W : Type} (value : FieldType) (name : String) :
    List (Constraint FieldType W) → Run W
  | [] => fun w => (.ok (), w)
  | p :: ps => fun w =>
    match p value name w with
    | (.error e, w1) => (.error e, w1)
    | (.ok (), w1) => applyInOrder value name ps w1

/-! ## Concrete inputs -/

/-- An expression node of class `k` with surface text `s`. -/
def mkExpr (k : SqlExpressionKind) (s : String) : SqlExpression :=
  { kind := k, surface := s, isConstantTrue := false }

/-- The having-expression of a statement without a HAVING clause. -/
def havingTrue : SqlExpression :=
  { kind := .ConstantExpression, surface := "true", isConstantTrue := true }

/-- The clause `text AS alias` whose inner expression is of class `k`. -/
def mkComputed (text a : String) (k : SqlExpressionKind) (inner : String) : SqlRowExpression :=
  .ComputedVariable { surface := text, «alias» := a, expression := some (mkExpr k inner) }

/-- A statement `SELECT clauses FROM t` without GROUP BY and HAVING. -/
def selectFromT (clauses : List SqlRowExpression) : SelectStatement :=
  { select := { clauses := clauses }, «from» := some { surface := "t" },
    groupBy := { clauses := [] }, having := havingTrue }

/-- The statement `SELECT *, a, b FROM t`. -/
def stmStarAB : SelectStatement :=
  selectFromT [.WildcardExpression "*", .SelectColumnExpression "a",
    mkComputed "b" "b" .ReadVariableExpression "b"]

/-- The statement `SELECT x, a + b AS s, c * 2 AS d FROM t`, with two clauses
(the arithmetic ones) outside the allow-list. -/
def stmTwoRejected : SelectStatement :=
  selectFromT [mkComputed "x" "x" .ReadVariableExpression "x",
    mkComputed "a + b AS s" "s" .Unclassified "a + b",
    mkComputed "c * 2 AS d" "d" .Unclassified "c * 2"]

/-- The statement `SELECT x FROM t GROUP BY x HAVING false`. -/
def stmGroupByHaving : SelectStatement :=
  { select := { clauses := [mkComputed "x" "x" .ReadVariableExpression "x"] },
    «from» := some { surface := "t" },
    groupBy := { clauses := [mkExpr .ReadVariableExpression "x"] },
    having := mkExpr .ConstantExpression "false" }

/-- The statement `SELECT {a,b} AS Features, c AS label FROM t`, whose first
alias differs from "features" in letter case only. -/
def stmCapitalFeatures : SelectStatement :=
  selectFromT [mkComputed "{a,b} AS Features" "Features" .SelectWithinExpression "{a,b}",
    mkComputed "c AS label" "label" .ReadVariableExpression "c"]

/-- The statement `SELECT {a,b} AS features, c AS label FROM t`. -/
def stmFeaturesLabel : SelectStatement :=
  selectFromT [mkComputed "{a,b} AS features" "features" .SelectWithinExpression "{a,b}",
    mkComputed "c AS label" "label" .ReadVariableExpression "c"]

/-- The statement `SELECT sum(a,b) AS s FROM t`. -/
def stmSumCall : SelectStatement :=
  selectFromT [mkComputed "sum(a,b) AS s" "s" .FunctionCallWrapper "sum(a,b)"]

/-- The statement `SELECT a AS features, {b,c} AS label FROM t`: the clause named
"features" is a scalar and the one named "label" is a row. -/
def stmScalarFeatures : SelectStatement :=
  selectFromT [mkComputed "a AS features" "features" .ReadVariableExpression "a",
    mkComputed "{b,c} AS label" "label" .SelectWithinExpression "{b,c}"]

/-- The statement `SELECT s AS score, c AS label FROM t`. -/
def stmScoreLabel : SelectStatement :=
  selectFromT [mkComputed "s AS score" "score" .ReadVariableExpression "s",
    mkComputed "c AS label" "label" .ReadVariableExpression "c"]

/-- The query of statement `stm` with its select list replaced by `clauses`. -/
def withClauses (stm : SelectStatement) (clauses : List SqlRowExpression) : InputQuery :=
  { stm := some { stm with select := { clauses := clauses } } }

/-- A config type with a function name and a model file. -/
structure ExampleFunctionConfig where
  functionName : String
  modelFileUrl : Url

/-- The members of `ExampleFunctionConfig` used by `validateFunction`. -/
instance instFunctionConfigExample : FunctionConfig ExampleFunctionConfig where
  name := "svd.train"
  functionName := ExampleFunctionConfig.functionName
  modelFileUrl := ExampleFunctionConfig.modelFileUrl

/-- The statement `SELECT 1`, without from-clause. -/
def stmSelectOne : SelectStatement :=
  { select := { clauses := [mkComputed "1" "1" .ConstantExpression "1"] },
    «from» := none, groupBy := { clauses := [] }, having := havingTrue }

/-- A config type with two query fields. -/
structure ExampleConfig where
  trainingData : InputQuery
  testingData : InputQuery

/-- The static member `ExampleConfig::name`. -/
instance instConfigNameExampleConfig : ConfigName ExampleConfig where
  name := "classifier.train"

/-- The config whose two fields hold `SELECT *, a, b FROM t`. -/
def exampleConfig : ExampleConfig :=
  { trainingData := { stm := some stmStarAB }, testingData := { stm := some stmStarAB } }

/-- An instrumented validator that counts its call and throws. -/
def countingFailure (msg : String) : Validator ExampleConfig Nat :=
  fun _ calls => (.error msg, calls + 1)

/-- An instrumented validator that counts its call (by ten) and returns. -/
def countingSuccess : Validator ExampleConfig Nat :=
  fun _ calls => (.ok (), calls + 10)

/-- An instrumented constraint that counts its call and throws. -/
def failingConstraint : Constraint InputQuery Nat :=
  fun _ name calls => (.error (name ++ " rejected by A"), calls + 1)

/-- An instrumented constraint that counts its call (by ten) and returns. -/
def recordingConstraint : Constraint InputQuery Nat :=
  fun _ _ calls => (.ok (), calls + 10)

/-! ## Properties of `PlainColumnSelect` -/

theorem PlainColumnSelect.continues_eq_specAccepted (clause : SqlRowExpression) :
    PlainColumnSelect.continues clause = specAccepted clause := by
  cases clause with
  | WildcardExpression s => rfl
  | SelectColumnExpression s => rfl
  | Unclassified s => rfl
  | ComputedVariable cv =>
    obtain ⟨s, a, e⟩ := cv
    cases e with
    | none => rfl
    | some e =>
      obtain ⟨k, s2, b⟩ := e
      cases k <;> rfl

theorem PlainColumnSelect.loop_ok_iff (name : String) (clauses : List SqlRowExpression) :
    PlainColumnSelect.loop name clauses = .ok () ↔ ∀ c ∈ clauses, specAccepted c = true := by
  induction clauses with
  | nil => simp [PlainColumnSelect.loop]
  | cons c rest ih =>
    by_cases h : specAccepted c = true
    · simp [PlainColumnSelect.loop, PlainColumnSelect.continues_eq_specAccepted, h, ih]
    · simp [PlainColumnSelect.loop, PlainColumnSelect.continues_eq_specAccepted, h]

theorem PlainColumnSelect.loop_first_rejected (name : String)
    (pre : List SqlRowExpression) (c : SqlRowExpression) (post : List SqlRowExpression)
    (hpre : ∀ x ∈ pre, specAccepted x = true) (hc : specAccepted c = false) :
    PlainColumnSelect.loop name (pre ++ c :: post) =
      .error (name ++ " only accepts wildcard and column names at " ++ c.surface) := by
  induction pre with
  | nil => simp [PlainColumnSelect.loop, PlainColumnSelect.continues_eq_specAccepted, hc]
  | cons p pre ih =>
    have hp : specAccepted p = true := hpre p (List.mem_cons_self _ _)
    have hrest : ∀ x ∈ pre, specAccepted x = true :=
      fun x hx => hpre x (List.mem_cons_of_mem _ hx)
    simp [PlainColumnSelect.loop, PlainColumnSelect.continues_eq_specAccepted, hp, ih hrest]

theorem PlainColumnSelect.loop_error_split (name : String) (clauses : List SqlRowExpression)
    (msg : String) (h : PlainColumnSelect.loop name clauses = .error msg) :
    ∃ pre c post, clauses = pre ++ c :: post ∧ (∀ x ∈ pre, specAccepted x = true) ∧
      specAccepted c = false ∧
      msg = name ++ " only accepts wildcard and column names at " ++ c.surface := by
  induction clauses with
  | nil => simp [PlainColumnSelect.loop] at h
  | cons c rest ih =>
    by_cases hc : specAccepted c = true
    · simp only [PlainColumnSelect.loop, PlainColumnSelect.continues_eq_specAccepted, hc,
        if_true] at h
      obtain ⟨pre, d, post, hsplit, hpre, hd, hmsg⟩ := ih h
      refine ⟨c :: pre, d, post, by simp [hsplit], ?_, hd, hmsg⟩
      intro x hx
      rcases List.mem_cons.mp hx with rfl | hx
      · exact hc
      · exact hpre x hx
    · have hc2 : specAccepted c = false := by simpa using hc
      simp only [PlainColumnSelect.loop, PlainColumnSelect.continues_eq_specAccepted, hc2] at h
      refine ⟨[], c, rest, rfl, by simp, hc2, ?_⟩
      simpa using h.symm

/-- C1: on a query that holds a statement, `PlainColumnSelect` succeeds exactly
when every select clause is accepted (a Wildcard, a ColumnReference, or a
ComputedVariable whose inner expression is of one of the seven allowed classes);
so it succeeds on an empty select list, and fails as soon as the list holds a
ComputedVariable with an inner expression of another class (or none) or a clause
of none of the three clause classes. -/
theorem PlainColumnSelect_ok_iff_all_accepted (query : InputQuery) (stm : SelectStatement)
    (name : String) (hstm : query.stm = some stm) :
    (PlainColumnSelect query name = .ok () ↔
        ∀ c ∈ stm.select.clauses, specAccepted c = true) ∧
      (stm.select.clauses = [] → PlainColumnSelect query name = .ok ()) ∧
      (∀ cv : ComputedVariable, SqlRowExpression.ComputedVariable cv ∈ stm.select.clauses →
        (∀ e, cv.expression = some e → e.kind = .Unclassified) →
        PlainColumnSelect query name ≠ .ok ()) ∧
      (∀ s : String, SqlRowExpression.Unclassified s ∈ stm.select.clauses →
        PlainColumnSelect query name ≠ .ok ()) := by
  have key : PlainColumnSelect query name = .ok () ↔
      ∀ c ∈ stm.select.clauses, specAccepted c = true := by
    simp only [PlainColumnSelect, hstm]
    exact PlainColumnSelect.loop_ok_iff name stm.select.clauses
  refine ⟨key, ?_, ?_, ?_⟩
  · intro hnil
    rw [key, hnil]
    intro c hc
    cases hc
  · intro cv hmem hkind hok
    have hacc := key.mp hok _ hmem
    cases hexp : cv.expression with
    | none => simp [specAccepted, hexp] at hacc
    | some e =>
      have hk := hkind e hexp
      simp [specAccepted, hexp, hk, specAllowedInner] at hacc
  · intro s hmem hok
    have hacc := key.mp hok _ hmem
    simp [specAccepted] at hacc

/-- Witness of C1 on `SELECT *, a, b FROM t`. -/
theorem PlainColumnSelect_ok_iff_all_accepted_witness :
    (InputQuery.mk (some stmStarAB)).stm = some stmStarAB ∧
      PlainColumnSelect (InputQuery.mk (some stmStarAB)) "cfg" = .ok () :=
  ⟨rfl, (PlainColumnSelect_ok_iff_all_accepted (InputQuery.mk (some stmStarAB)) stmStarAB
    "cfg" rfl).1.mpr (by decide)⟩

/-- C2: whenever `PlainColumnSelect` fails, its message is the name, then
" only accepts wildcard and column names at ", then the surface text of the
first clause (smallest index) that is not accepted; and whatever follows that
clause in the select list has no influence on the result. -/
theorem PlainColumnSelect_error_cites_first_rejected (query : InputQuery) (name : String) :
    (∀ msg, PlainColumnSelect query name = .error msg →
        ∃ stm pre c post, query.stm = some stm ∧ stm.select.clauses = pre ++ c :: post ∧
          (∀ x ∈ pre, specAccepted x = true) ∧ specAccepted c = false ∧
          msg = name ++ " only accepts wildcard and column names at " ++ c.surface) ∧
      (∀ stm pre c post, query.stm = some stm → stm.select.clauses = pre ++ c :: post →
        (∀ x ∈ pre, specAccepted x = true) → specAccepted c = false →
        PlainColumnSelect query name =
          .error (name ++ " only accepts wildcard and column names at " ++ c.surface)) := by
  constructor
  · intro msg h
    cases hstm : query.stm with
    | none => simp [PlainColumnSelect, hstm] at h
    | some stm =>
      simp only [PlainColumnSelect, hstm] at h
      obtain ⟨pre, c, post, hsplit, hpre, hc, hmsg⟩ :=
        PlainColumnSelect.loop_error_split name _ msg h
      exact ⟨stm, pre, c, post, rfl, hsplit, hpre, hc, hmsg⟩
  · intro stm pre c post hstm hsplit hpre hc
    simp only [PlainColumnSelect, hstm, hsplit]
    exact PlainColumnSelect.loop_first_rejected name pre c post hpre hc

/-- Witness of C2: with two rejected clauses only the first one is cited. -/
theorem PlainColumnSelect_error_cites_first_rejected_witness :
    PlainColumnSelect (InputQuery.mk (some stmTwoRejected)) "cfg" =
      .error "cfg only accepts wildcard and column names at a + b AS s" :=
  (PlainColumnSelect_error_cites_first_rejected (InputQuery.mk (some stmTwoRejected)) "cfg").2
    stmTwoRejected [mkComputed "x" "x" .ReadVariableExpression "x"]
    (mkComputed "a + b AS s" "s" .Unclassified "a + b")
    [mkComputed "c * 2 AS d" "d" .Unclassified "c * 2"] rfl rfl (by decide) rfl

/-! ## Properties of `chain` and `validateQuery` -/

theorem chain_error {ConfigType W : Type} (v1 v2 : Validator ConfigType W) (config : ConfigType)
    (w w1 : W) (e : String) (h : v1 config w = (.error e, w1)) :
    chain v1 v2 config w = (.error e, w1) := by
  simp [chain, h]

theorem chain_ok {ConfigType W : Type} (v1 v2 : Validator ConfigType W) (config : ConfigType)
    (w w1 : W) (h : v1 config w = (.ok (), w1)) :
    chain v1 v2 config w = v2 config w1 := by
  simp [chain, h]

theorem run_cases {W : Type} (r : Except String Unit × W) :
    (∃ e w1, r = (.error e, w1)) ∨ ∃ w1, r = (.ok (), w1) := by
  obtain ⟨o, w1⟩ := r
  cases o with
  | error e => exact Or.inl ⟨e, w1, rfl⟩
  | ok u => exact Or.inr ⟨w1, rfl⟩

theorem chain_assoc_fun {ConfigType W : Type} (a b c : Validator ConfigType W) :
    chain (chain a b) c = chain a (chain b c) := by
  funext config w
  rcases run_cases (a config w) with ⟨e, w1, ha⟩ | ⟨w1, ha⟩
  · rw [chain_error _ _ _ _ _ _ (chain_error a b config w w1 e ha), chain_error _ _ _ _ _ _ ha]
  · rcases run_cases (b config w1) with ⟨e, w2, hb⟩ | ⟨w2, hb⟩
    · have hab : chain a b config w = (.error e, w2) := by rw [chain_ok _ _ _ _ _ ha, hb]
      rw [chain_error _ _ _ _ _ _ hab, chain_ok _ _ _ _ _ ha, chain_error _ _ _ _ _ _ hb]
    · have hab : chain a b config w = (.ok (), w2) := by rw [chain_ok _ _ _ _ _ ha, hb]
      rw [chain_ok _ _ _ _ _ hab, chain_ok _ _ _ _ _ ha, chain_ok _ _ _ _ _ hb]

theorem foldl_chain_chain {ConfigType W : Type} (l : List (Validator ConfigType W))
    (a b : Validator ConfigType W) :
    List.foldl chain (chain a b) l = chain a (List.foldl chain b l) := by
  induction l generalizing b with
  | nil => rfl
  | cons c l ih =>
    simp only [List.foldl_cons]
    rw [chain_assoc_fun, ih]

theorem validateQuery_eq_foldl {ConfigType FieldType W : Type} [ConfigName ConfigType]
    (field : ConfigType → FieldType) (P : Constraint FieldType W)
    (Ps : List (Constraint FieldType W)) :
    validateQuery field P Ps =
      List.foldl chain (validateQuery1 field P) (Ps.map (validateQuery1 field)) := by
  induction Ps generalizing P with
  | nil => rfl
  | cons c cs ih =>
    simp only [validateQuery, List.map_cons, List.foldl_cons]
    rw [ih c, foldl_chain_chain]
    rfl

theorem validateQuery_eq_applyInOrder {ConfigType FieldType W : Type} [ConfigName ConfigType]
    (field : ConfigType → FieldType) (P : Constraint FieldType W)
    (Ps : List (Constraint FieldType W)) (cfg : ConfigType) (w : W) :
    validateQuery field P Ps cfg w =
      applyInOrder (field cfg) (ConfigName.name ConfigType) (P :: Ps) w := by
  induction Ps generalizing P w with
  | nil =>
    simp only [validateQuery, applyInOrder]
    rcases run_cases (P (field cfg) (ConfigName.name ConfigType) w) with ⟨e, w1, h⟩ | ⟨w1, h⟩ <;>
      simp [h]
  | cons c cs ih =>
    simp only [validateQuery]
    rcases run_cases (P (field cfg) (ConfigName.name ConfigType) w) with ⟨e, w1, h⟩ | ⟨w1, h⟩
    · have hc := chain_error (validateQuery1 field P) (validateQuery field c cs) cfg w w1 e h
      rw [applyInOrder]
      simp only [h]
      exact hc
    · have hc := chain_ok (validateQuery1 field P) (validateQuery field c cs) cfg w w1 h
      rw [applyInOrder]
      simp only [h]
      rw [← ih c w1]
      exact hc

theorem applyInOrder_first_failure {FieldType W : Type} (value : FieldType) (name : String)
    (pre : List (Constraint FieldType W)) (A : Constraint FieldType W)
    (post : List (Constraint FieldType W)) (w w1 w2 : W) (e : String)
    (hpre : applyInOrder value name pre w = (.ok (), w1))
    (hA : A value name w1 = (.error e, w2)) :
    applyInOrder value name (pre ++ A :: post) w = (.error e, w2) := by
  induction pre generalizing w with
  | nil =>
    simp only [applyInOrder, Prod.mk.injEq, true_and] at hpre
    subst hpre
    simp [applyInOrder, hA]
  | cons p pre ih =>
    simp only [List.cons_append]
    rw [applyInOrder] at hpre ⊢
    rcases run_cases (p value name w) with ⟨e1, w3, h⟩ | ⟨w3, h⟩
    · simp [h] at hpre
    · simp only [h] at hpre ⊢
      exact ih w3 hpre

theorem applyInOrder_pure_ok_iff {FieldType W : Type} (value : FieldType) (name : String)
    (ps : List (FieldType → String → Except String Unit)) (w : W) :
    (applyInOrder value name (ps.map pureConstraint) w).1 = .ok () ↔
      ∀ q ∈ ps, q value name = .ok () := by
  induction ps with
  | nil => simp [applyInOrder]
  | cons p ps ih =>
    simp only [List.map_cons, applyInOrder, pureConstraint, List.mem_cons, forall_eq_or_imp]
    cases hp : p value name with
    | error e => simp
    | ok u =>
      simp only [true_and]
      exact ih

/-- C3: `validateQuery(field, P1, ..., Pn)` is the left fold of `chain` over the
single-predicate validators, and it applies the predicates to the field's value
from left to right, stopping at the first failure: when the predicates before
`A` return and `A` throws, the result is `A`'s exception and the world is the
one `A` left, whatever follows `A` (so a predicate after it is never called);
in particular for `[A, B]` with `A` failing, for every `B`.  For side-effect
free predicates it succeeds exactly when each of them succeeds. -/
theorem validateQuery_first_failure {ConfigType FieldType W : Type} [ConfigName ConfigType]
    (field : ConfigType → FieldType) (cfg : ConfigType) (P : Constraint FieldType W)
    (Ps : List (Constraint FieldType W)) (w : W) :
    validateQuery field P Ps =
        List.foldl chain (validateQuery1 field P) (Ps.map (validateQuery1 field)) ∧
      validateQuery field P Ps cfg w =
        applyInOrder (field cfg) (ConfigName.name ConfigType) (P :: Ps) w ∧
      (∀ pre A post w1 w2 e, P :: Ps = pre ++ A :: post →
        applyInOrder (field cfg) (ConfigName.name ConfigType) pre w = (.ok (), w1) →
        A (field cfg) (ConfigName.name ConfigType) w1 = (.error e, w2) →
        validateQuery field P Ps cfg w = (.error e, w2)) ∧
      (∀ B w1 e, P (field cfg) (ConfigName.name ConfigType) w = (.error e, w1) →
        validateQuery field P [B] cfg w = (.error e, w1)) ∧
      (∀ p ps, P = pureConstraint p → Ps = List.map pureConstraint ps →
        ((validateQuery field P Ps cfg w).1 = .ok () ↔
          ∀ q ∈ p :: ps, q (field cfg) (ConfigName.name ConfigType) = .ok ())) := by
  refine ⟨validateQuery_eq_foldl field P Ps, validateQuery_eq_applyInOrder field P Ps cfg w,
    ?_, ?_, ?_⟩
  · intro pre A post w1 w2 e hsplit hpre hA
    rw [validateQuery_eq_applyInOrder, hsplit]
    exact applyInOrder_first_failure _ _ pre A post w w1 w2 e hpre hA
  · intro B w1 e hP
    exact chain_error (validateQuery1 field P) (validateQuery field B []) cfg w w1 e hP
  · intro p ps hP hPs
    rw [validateQuery_eq_applyInOrder, hP, hPs]
    exact applyInOrder_pure_ok_iff (field cfg) _ (p :: ps) w

/-- Witness of C3: `A` throws and `B` counts its calls; after
`validateQuery(field, A, B)` the counter shows the single call of `A`. -/
theorem validateQuery_first_failure_witness :
    validateQuery ExampleConfig.trainingData failingConstraint [recordingConstraint]
      exampleConfig 0 = (.error "classifier.train rejected by A", 1) :=
  (validateQuery_first_failure ExampleConfig.trainingData exampleConfig failingConstraint
    [recordingConstraint] 0).2.2.1 [] failingConstraint [recordingConstraint] 0 1
    "classifier.train rejected by A" rfl rfl rfl

/-- C4: when `v1` throws, `chain(v1, v2)` throws the same exception and leaves the
world `v1` left (`v2` is not run); when `v1` returns, the outcome is that of `v2`
on the same config; so the chain succeeds exactly when both succeed. -/
theorem chain_first_failure_or_second {ConfigType W : Type} (v1 v2 : Validator ConfigType W)
    (config : ConfigType) (w : W) :
    (∀ e w1, v1 config w = (.error e, w1) → chain v1 v2 config w = (.error e, w1)) ∧
      (∀ w1, v1 config w = (.ok (), w1) → chain v1 v2 config w = v2 config w1) ∧
      ((chain v1 v2 config w).1 = .ok () ↔
        (v1 config w).1 = .ok () ∧ (v2 config (v1 config w).2).1 = .ok ()) := by
  refine ⟨fun e w1 h => chain_error v1 v2 config w w1 e h,
    fun w1 h => chain_ok v1 v2 config w w1 h, ?_⟩
  rcases run_cases (v1 config w) with ⟨e, w1, h⟩ | ⟨w1, h⟩
  · rw [chain_error v1 v2 config w w1 e h, h]
    simp
  · rw [chain_ok v1 v2 config w w1 h, h]
    simp

/-- Witness of C4: the failing first validator was called once, the second never. -/
theorem chain_first_failure_or_second_witness :
    chain (countingFailure "first failed") countingSuccess exampleConfig 0 =
      (.error "first failed", 1) :=
  (chain_first_failure_or_second (countingFailure "first failed") countingSuccess
    exampleConfig 0).1 "first failed" 1 rfl

/-! ## Absent queries -/

/-- C5: each predicate with an overload for an optional query succeeds on an
absent one, for every name. -/
theorem optional_overloads_accept_absent (name : String) :
    NoGroupByHaving.optional none name = .ok () ∧
      MustContainFrom.optional none name = .ok () ∧
      PlainColumnSelect.optional none name = .ok () ∧
      FeaturesLabelSelect.optional none name = .ok () :=
  ⟨rfl, rfl, rfl, rfl⟩

/-- C6 refuted as stated: on a required query without statement `MustContainFrom`,
`FeaturesLabelSelect` and `ScoreLabelSelect` throw. -/
theorem required_query_without_stm_counterexample :
    MustContainFrom { stm := none } "cfg" = .error "cfg must contain a FROM clause" ∧
      FeaturesLabelSelect { stm := none } "cfg" =
        .error "cfg expects a row named 'features' and a scalar named 'label'" ∧
      ScoreLabelSelect { stm := none } "cfg" =
        .error "cfg expects a scalar named 'score' and a scalar named 'label'" :=
  ⟨rfl, rfl, rfl⟩

/-- C6 as amended: on a required query without statement `NoGroupByHaving` and
`PlainColumnSelect` succeed, while `MustContainFrom`, `FeaturesLabelSelect` and
`ScoreLabelSelect` fail with their own message, for every name. -/
theorem required_query_without_stm (name : String) :
    NoGroupByHaving { stm := none } name = .ok () ∧
      PlainColumnSelect { stm := none } name = .ok () ∧
      MustContainFrom { stm := none } name = .error (name ++ " must contain a FROM clause") ∧
      FeaturesLabelSelect { stm := none } name =
        .error (name ++ " expects a row named 'features' and a scalar named 'label'") ∧
      ScoreLabelSelect { stm := none } name =
        .error (name ++ " expects a scalar named 'score' and a scalar named 'label'") :=
  ⟨rfl, rfl, rfl, rfl, rfl⟩

/-! ## `NoGroupByHaving` and `MustContainFrom` -/

theorem string_append_left_cancel (n a b : String) (h : n ++ a = n ++ b) : a = b := by
  have hd := congrArg String.data h
  simp only [String.data_append] at hd
  exact String.ext (List.append_cancel_left hd)

theorem groupBy_message_ne_having_message (name : String) :
    name ++ " does not support groupBy clause" ≠ name ++ " does not support having clause" := by
  intro h
  have := string_append_left_cancel _ _ _ h
  revert this
  decide

/-- C7: on a query that holds a statement, `NoGroupByHaving` fails with
name + " does not support groupBy clause" exactly when the group-by list is not
empty, whatever the having-expression; with an empty group-by list it fails with
name + " does not support having clause" exactly when the having-expression is
not constant true; and it succeeds exactly when neither is the case. -/
theorem NoGroupByHaving_groupBy_then_having (query : InputQuery) (stm : SelectStatement)
    (name : String) (hstm : query.stm = some stm) :
    (NoGroupByHaving query name = .error (name ++ " does not support groupBy clause") ↔
        stm.groupBy.clauses ≠ []) ∧
      (stm.groupBy.clauses = [] →
        (NoGroupByHaving query name = .error (name ++ " does not support having clause") ↔
          stm.having.isConstantTrue = false)) ∧
      (NoGroupByHaving query name = .ok () ↔
        stm.groupBy.clauses = [] ∧ stm.having.isConstantTrue = true) := by
  have hne := groupBy_message_ne_having_message name
  cases hg : stm.groupBy.clauses with
  | cons g gs =>
    simp [NoGroupByHaving, hstm, TupleExpression.empty, hg]
  | nil =>
    cases hh : stm.having.isConstantTrue with
    | true => simp [NoGroupByHaving, hstm, TupleExpression.empty, hg, hh]
    | false =>
      simp only [NoGroupByHaving, hstm, TupleExpression.empty, hg, hh]
      simp [hne.symm]

/-- Witness of C7: with both a GROUP BY and a HAVING that is not constant true,
only the groupBy message is reported. -/
theorem NoGroupByHaving_groupBy_then_having_witness :
    (InputQuery.mk (some stmGroupByHaving)).stm = some stmGroupByHaving ∧
      NoGroupByHaving (InputQuery.mk (some stmGroupByHaving)) "cfg" =
        .error "cfg does not support groupBy clause" :=
  ⟨rfl, (NoGroupByHaving_groupBy_then_having (InputQuery.mk (some stmGroupByHaving))
    stmGroupByHaving "cfg" rfl).1.mpr (by decide)⟩

/-- C8: `MustContainFrom` fails, with message name + " must contain a FROM
clause", exactly when the query has no statement, or its statement has no
from-clause, or the from-clause has empty surface text; otherwise it
succeeds. -/
theorem MustContainFrom_error_iff_no_from (query : InputQuery) (name : String) :
    (MustContainFrom query name = .error (name ++ " must contain a FROM clause") ↔
        (query.stm = none ∨ ∃ stm, query.stm = some stm ∧
          (stm.«from» = none ∨ ∃ f, stm.«from» = some f ∧ f.surface = ""))) ∧
      (MustContainFrom query name = .ok () ↔
        ¬ (query.stm = none ∨ ∃ stm, query.stm = some stm ∧
          (stm.«from» = none ∨ ∃ f, stm.«from» = some f ∧ f.surface = ""))) := by
  obtain ⟨stm⟩ := query
  cases stm with
  | none => simp [MustContainFrom, MustContainFrom.lacksFrom]
  | some stm =>
    cases hf : stm.«from» with
    | none => simp [MustContainFrom, MustContainFrom.lacksFrom, hf]
    | some f =>
      by_cases hs : f.surface = ""
      · have he : "".isEmpty = true := rfl
        simp [MustContainFrom, MustContainFrom.lacksFrom, hf, hs, he]
      · have hne : f.surface.isEmpty = false := by
          cases he : f.surface.isEmpty with
          | false => rfl
          | true => exact absurd ((String.isEmpty_iff _).mp he) hs
        simp [MustContainFrom, MustContainFrom.lacksFrom, hf, hs, hne]

/-! ## `containsNamedSubSelect` and `FeaturesLabelSelect` -/

theorem containsNamedSubSelect.loop_iff (name : String) (clauses : List SqlRowExpression) :
    containsNamedSubSelect.loop name clauses = true ↔
      ∃ cv : ComputedVariable, SqlRowExpression.ComputedVariable cv ∈ clauses ∧
        cv.«alias» = name := by
  induction clauses with
  | nil => simp [containsNamedSubSelect.loop]
  | cons c rest ih =>
    cases c with
    | ComputedVariable cv =>
      by_cases h : cv.«alias» = name
      · simp only [containsNamedSubSelect.loop, containsNamedSubSelect.getComputedVariable, h,
          beq_self_eq_true, if_true, true_iff]
        exact ⟨cv, List.mem_cons_self _ _, h⟩
      · simp only [containsNamedSubSelect.loop, containsNamedSubSelect.getComputedVariable]
        have hb : (cv.«alias» == name) = false := by simpa using h
        simp only [hb, Bool.false_eq_true, if_false, ih]
        constructor
        · rintro ⟨cv2, hmem, ha⟩
          exact ⟨cv2, List.mem_cons_of_mem _ hmem, ha⟩
        · rintro ⟨cv2, hmem, ha⟩
          rcases List.mem_cons.mp hmem with heq | hmem
          · injection heq with heq
            exact absurd (heq ▸ ha) h
          · exact ⟨cv2, hmem, ha⟩
    | WildcardExpression s =>
      simp [containsNamedSubSelect.loop, containsNamedSubSelect.getComputedVariable, ih]
    | SelectColumnExpression s =>
      simp [containsNamedSubSelect.loop, containsNamedSubSelect.getComputedVariable, ih]
    | Unclassified s =>
      simp [containsNamedSubSelect.loop, containsNamedSubSelect.getComputedVariable, ih]

theorem containsNamedSubSelect_iff (query : InputQuery) (n : String) :
    containsNamedSubSelect query n = true ↔
      ∃ stm, query.stm = some stm ∧
        ∃ cv : ComputedVariable, SqlRowExpression.ComputedVariable cv ∈ stm.select.clauses ∧
          cv.«alias» = n := by
  cases hstm : query.stm with
  | none => simp [containsNamedSubSelect, hstm]
  | some stm =>
    simp only [containsNamedSubSelect, hstm, Option.some.injEq, exists_eq_left']
    exact containsNamedSubSelect.loop_iff n stm.select.clauses

/-- C9: `containsNamedSubSelect(query, n)` is true exactly when the query holds a
statement one of whose select clauses is a ComputedVariable with alias equal to
`n`.  The comparison is exact: wildcard and column clauses never match, and the
alias "Features" does not match the name "features". -/
theorem containsNamedSubSelect_exact_alias (query : InputQuery) (n : String) :
    (containsNamedSubSelect query n = true ↔
        ∃ stm, query.stm = some stm ∧
          ∃ cv : ComputedVariable,
            SqlRowExpression.ComputedVariable cv ∈ stm.select.clauses ∧ cv.«alias» = n) ∧
      ((∀ stm, query.stm = some stm → ∀ c ∈ stm.select.clauses,
          (∃ s, c = .WildcardExpression s) ∨ (∃ s, c = .SelectColumnExpression s)) →
        containsNamedSubSelect query n = false) ∧
      containsNamedSubSelect { stm := some stmCapitalFeatures } "features" = false ∧
      containsNamedSubSelect { stm := some stmCapitalFeatures } "Features" = true := by
  refine ⟨containsNamedSubSelect_iff query n, ?_, by decide, by decide⟩
  intro hall
  cases hc : containsNamedSubSelect query n with
  | false => rfl
  | true =>
    obtain ⟨stm, hstm, cv, hmem, _⟩ := (containsNamedSubSelect_iff query n).mp hc
    rcases hall stm hstm _ hmem with ⟨s, hs⟩ | ⟨s, hs⟩ <;> cases hs

/-- Witness of C9: no clause of `SELECT *, a` is a ComputedVariable, so no name
is found in it. -/
theorem containsNamedSubSelect_exact_alias_witness :
    containsNamedSubSelect
      { stm := some (selectFromT [.WildcardExpression "*", .SelectColumnExpression "a"]) }
      "a" = false :=
  (containsNamedSubSelect_exact_alias
    { stm := some (selectFromT [.WildcardExpression "*", .SelectColumnExpression "a"]) }
    "a").2.1 (by
      intro stm hstm c hc
      cases hstm
      simp only [selectFromT, List.mem_cons, List.mem_singleton, List.not_mem_nil,
        or_false] at hc
      rcases hc with rfl | rfl
      · exact Or.inl ⟨"*", rfl⟩
      · exact Or.inr ⟨"a", rfl⟩)

/-- C10: `FeaturesLabelSelect` succeeds exactly when the select list holds a
ComputedVariable aliased "features" and a ComputedVariable aliased "label"; in
every other case it fails with the one message
name + " expects a row named 'features' and a scalar named 'label'". -/
theorem FeaturesLabelSelect_ok_iff_both_aliases (query : InputQuery) (name : String) :
    (FeaturesLabelSelect query name = .ok () ↔
        ∃ stm, query.stm = some stm ∧
          (∃ cv : ComputedVariable, SqlRowExpression.ComputedVariable cv ∈ stm.select.clauses ∧
            cv.«alias» = "features") ∧
          (∃ cv : ComputedVariable, SqlRowExpression.ComputedVariable cv ∈ stm.select.clauses ∧
            cv.«alias» = "label")) ∧
      (FeaturesLabelSelect query name ≠ .ok () →
        FeaturesLabelSelect query name =
          .error (name ++ " expects a row named 'features' and a scalar named 'label'")) := by
  have hf := containsNamedSubSelect_iff query "features"
  have hl := containsNamedSubSelect_iff query "label"
  constructor
  · cases h1 : containsNamedSubSelect query "features" with
    | false =>
      have hno := hf.not.mp (by simp [h1])
      simp only [FeaturesLabelSelect, h1]
      constructor
      · intro h
        simp at h
      · rintro ⟨stm, hstm, hfe, _⟩
        exact absurd ⟨stm, hstm, hfe⟩ hno
    | true =>
      obtain ⟨stm, hstm, hfe⟩ := hf.mp h1
      cases h2 : containsNamedSubSelect query "label" with
      | false =>
        have hno := hl.not.mp (by simp [h2])
        simp only [FeaturesLabelSelect, h1, h2]
        constructor
        · intro h
          simp at h
        · rintro ⟨stm2, hstm2, _, hla⟩
          exact absurd ⟨stm2, hstm2, hla⟩ hno
      | true =>
        obtain ⟨stm2, hstm2, hla⟩ := hl.mp h2
        have heq : stm2 = stm := Option.some.inj (hstm2.symm.trans hstm)
        subst heq
        simp only [FeaturesLabelSelect, h1, h2]
        constructor
        · intro _
          exact ⟨stm2, hstm, hfe, hla⟩
        · intro _
          simp
  · intro hne
    unfold FeaturesLabelSelect at hne ⊢
    split
    · rfl
    · rename_i hcond
      simp [hcond] at hne

/-- Witness of C10: `SELECT {a,b} AS Features, c AS label FROM t` lacks the alias
"features" and fails with the message naming both aliases. -/
theorem FeaturesLabelSelect_ok_iff_both_aliases_witness :
    FeaturesLabelSelect { stm := some stmCapitalFeatures } "cfg" =
      .error "cfg expects a row named 'features' and a scalar named 'label'" :=
  (FeaturesLabelSelect_ok_iff_both_aliases { stm := some stmCapitalFeatures } "cfg").2
    (by
      intro h
      have h2 : FeaturesLabelSelect { stm := some stmCapitalFeatures } "cfg" =
          .error "cfg expects a row named 'features' and a scalar named 'label'" := rfl
      rw [h2] at h
      cases h)

/-! ## `ScoreLabelSelect` -/

theorem containsNamedSubSelect_both_iff (query : InputQuery) (a b : String) :
    (!containsNamedSubSelect query a || !containsNamedSubSelect query b) = false ↔
      ∃ stm, query.stm = some stm ∧
        (∃ cv : ComputedVariable, SqlRowExpression.ComputedVariable cv ∈ stm.select.clauses ∧
          cv.«alias» = a) ∧
        (∃ cv : ComputedVariable, SqlRowExpression.ComputedVariable cv ∈ stm.select.clauses ∧
          cv.«alias» = b) := by
  have ha := containsNamedSubSelect_iff query a
  have hb := containsNamedSubSelect_iff query b
  constructor
  · intro h
    simp only [Bool.or_eq_false_iff, Bool.not_eq_false'] at h
    obtain ⟨stm, hstm, hfa⟩ := ha.mp h.1
    obtain ⟨stm2, hstm2, hfb⟩ := hb.mp h.2
    have heq : stm2 = stm := Option.some.inj (hstm2.symm.trans hstm)
    subst heq
    exact ⟨stm2, hstm, hfa, hfb⟩
  · rintro ⟨stm, hstm, hfa, hfb⟩
    have h1 := ha.mpr ⟨stm, hstm, hfa⟩
    have h2 := hb.mpr ⟨stm, hstm, hfb⟩
    simp [h1, h2]

/-- C11: `ScoreLabelSelect` succeeds exactly when the select list holds a
ComputedVariable aliased "score" and a ComputedVariable aliased "label"; in
every other case it fails with the one message
name + " expects a scalar named 'score' and a scalar named 'label'". -/
theorem ScoreLabelSelect_ok_iff_both_aliases (query : InputQuery) (name : String) :
    (ScoreLabelSelect query name = .ok () ↔
        ∃ stm, query.stm = some stm ∧
          (∃ cv : ComputedVariable, SqlRowExpression.ComputedVariable cv ∈ stm.select.clauses ∧
            cv.«alias» = "score") ∧
          (∃ cv : ComputedVariable, SqlRowExpression.ComputedVariable cv ∈ stm.select.clauses ∧
            cv.«alias» = "label")) ∧
      (ScoreLabelSelect query name ≠ .ok () →
        ScoreLabelSelect query name =
          .error (name ++ " expects a scalar named 'score' and a scalar named 'label'")) := by
  have hboth := containsNamedSubSelect_both_iff query "score" "label"
  cases hc : (!containsNamedSubSelect query "score" || !containsNamedSubSelect query "label") with
  | false =>
    have hex := hboth.mp hc
    constructor
    · simp only [ScoreLabelSelect, hc]
      simpa using hex
    · intro hne
      simp [ScoreLabelSelect, hc] at hne
  | true =>
    have hno := hboth.not.mp (by simp [hc])
    constructor
    · simp only [ScoreLabelSelect, hc]
      constructor
      · intro h
        simp at h
      · intro h
        exact absurd h hno
    · intro _
      simp [ScoreLabelSelect, hc]

/-- Witness of C11: `SELECT {a,b} AS features, c AS label FROM t` has no clause
aliased "score" and fails with the message naming both aliases. -/
theorem ScoreLabelSelect_ok_iff_both_aliases_witness :
    ScoreLabelSelect { stm := some stmFeaturesLabel } "cfg" =
      .error "cfg expects a scalar named 'score' and a scalar named 'label'" :=
  (ScoreLabelSelect_ok_iff_both_aliases { stm := some stmFeaturesLabel } "cfg").2
    (by
      intro h
      have h2 : ScoreLabelSelect { stm := some stmFeaturesLabel } "cfg" =
          .error "cfg expects a scalar named 'score' and a scalar named 'label'" := rfl
      rw [h2] at h
      cases h)

/-! ## `validateFunction` -/

/-- C12: the validator of `validateFunction` fails exactly when the config's
functionName is not empty and its modelFileUrl is not valid; the message is then
the config type's name, " requires a valid modelFileUrl when specifying a
functionName. modelFileUrl '", the string form of the URL and "' is invalid.",
so the URL's string form occurs in it.  An empty functionName or a valid URL
makes it succeed. -/
theorem validateFunction_error_iff {ConfigType W : Type} [FunctionConfig ConfigType]
    (cfg : ConfigType) (w : W) :
    ((validateFunction cfg w).1 ≠ .ok () ↔
        FunctionConfig.functionName cfg ≠ "" ∧ (FunctionConfig.modelFileUrl cfg).valid = false) ∧
      ((validateFunction cfg w).1 ≠ .ok () →
        validateFunction cfg w =
          (.error (ConfigName.name ConfigType ++
            " requires a valid modelFileUrl when specifying a functionName. modelFileUrl '" ++
            (FunctionConfig.modelFileUrl cfg).toString ++ "' is invalid."), w)) ∧
      (∀ msg, (validateFunction cfg w).1 = .error msg →
        ∃ before after,
          msg = before ++ (FunctionConfig.modelFileUrl cfg).toString ++ after) ∧
      (FunctionConfig.functionName cfg = "" → validateFunction cfg w = (.ok (), w)) ∧
      ((FunctionConfig.modelFileUrl cfg).valid = true → validateFunction cfg w = (.ok (), w)) := by
  have hempty : (FunctionConfig.functionName cfg).isEmpty = true ↔
      FunctionConfig.functionName cfg = "" := String.isEmpty_iff _
  cases he : (FunctionConfig.functionName cfg).isEmpty with
  | true =>
    have hn : FunctionConfig.functionName cfg = "" := hempty.mp he
    have h0 : "".isEmpty = true := rfl
    simp [validateFunction, hn, h0]
  | false =>
    have hn : FunctionConfig.functionName cfg ≠ "" := fun h => by
      rw [hempty.mpr h] at he
      cases he
    cases hv : (FunctionConfig.modelFileUrl cfg).valid with
    | true => simp [validateFunction, he, hv]
    | false =>
      simp only [validateFunction, he, hv]
      refine ⟨by simp [hn], by simp, ?_, fun h => absurd h hn, by simp⟩
      intro msg hmsg
      simp only [Bool.not_false, Bool.and_self, if_true, Except.error.injEq] at hmsg
      exact ⟨_, _, hmsg.symm⟩

/-- Witness of C12: functionName "f" with the invalid model file "not a url". -/
theorem validateFunction_error_iff_witness :
    validateFunction (W := Unit)
        ({ functionName := "f", modelFileUrl := { toString := "not a url", valid := false } } :
          ExampleFunctionConfig) () =
      (.error ("svd.train requires a valid modelFileUrl when specifying a functionName. " ++
        "modelFileUrl 'not a url' is invalid."), ()) :=
  (validateFunction_error_iff (W := Unit)
    ({ functionName := "f", modelFileUrl := { toString := "not a url", valid := false } } :
      ExampleFunctionConfig) ()).2.1
    (by
      intro h
      cases h)

/-! ## The doc comments of `PlainColumnSelect` and `FeaturesLabelSelect` -/

/-- C13, evaluated on the code: `PlainColumnSelect` returns without an exception
on `SELECT sum(a,b) AS s FROM t`, whose only clause is a ComputedVariable with a
function call as inner expression, although its doc comment announces that
operations on columns like `sum(column1, column2)` are rejected. -/
theorem PlainColumnSelect_accepts_function_call :
    PlainColumnSelect { stm := some stmSumCall } "cfg" = .ok () ∧
      stmSumCall.select.clauses =
        [.ComputedVariable
          { surface := "sum(a,b) AS s"
            «alias» := "s"
            expression := some (mkExpr .FunctionCallWrapper "sum(a,b)") }] :=
  ⟨rfl, rfl⟩

/-- C14, evaluated on the code: `FeaturesLabelSelect` returns without an exception
on `SELECT a AS features, {b,c} AS label FROM t`, where no clause is a row named
"features" and no clause is a scalar named "label": only the aliases are
looked at. -/
theorem FeaturesLabelSelect_ignores_expression_kind :
    FeaturesLabelSelect { stm := some stmScalarFeatures } "cfg" = .ok () ∧
      stmScalarFeatures.select.clauses.any (specRowNamed "features") = false ∧
      stmScalarFeatures.select.clauses.any (specScalarNamed "label") = false :=
  ⟨rfl, by decide, by decide⟩

/-! ## Algebra of `chain`, optional overloads, messages -/

/-- C15: `chain` is associative: `chain(chain(a, b), c)` and
`chain(a, chain(b, c))` have the same outcome (and leave the same world) on
every config. -/
theorem chain_associative {ConfigType W : Type} (a b c : Validator ConfigType W)
    (config : ConfigType) (w : W) :
    chain (chain a b) c config w = chain a (chain b c) config w :=
  congrFun (congrFun (chain_assoc_fun a b c) config) w

/-- C16: applied to a present optional query holding `q`, each of the four
predicates with an optional overload has exactly the outcome of its
required-query form on `q`; so a present query whose statement has no
from-clause still fails `MustContainFrom`. -/
theorem optional_present_eq_required (q : InputQuery) (name : String) :
    NoGroupByHaving.optional (some q) name = NoGroupByHaving q name ∧
      MustContainFrom.optional (some q) name = MustContainFrom q name ∧
      PlainColumnSelect.optional (some q) name = PlainColumnSelect q name ∧
      FeaturesLabelSelect.optional (some q) name = FeaturesLabelSelect q name ∧
      (∀ stm, q.stm = some stm → stm.«from» = none →
        MustContainFrom.optional (some q) name =
          .error (name ++ " must contain a FROM clause")) := by
  refine ⟨rfl, rfl, rfl, rfl, ?_⟩
  intro stm hstm hfrom
  simp [MustContainFrom.optional, MustContainFrom, MustContainFrom.lacksFrom, hstm, hfrom]

/-- Witness of C16: a present `SELECT 1` (no from-clause) fails `MustContainFrom`. -/
theorem optional_present_eq_required_witness :
    MustContainFrom.optional
        (some { stm := some stmSelectOne })
        "cfg" = .error "cfg must contain a FROM clause" :=
  (optional_present_eq_required
    { stm := some stmSelectOne } "cfg").2.2.2.2 stmSelectOne rfl rfl

theorem name_space_prefix (name tail more : String) :
    ∃ rest, name ++ (" " ++ tail) ++ more = name ++ " " ++ rest :=
  ⟨tail ++ more, by simp only [String.append_assoc]⟩

theorem name_space_tail (name tail msg : String) (h : name ++ (" " ++ tail) = msg) :
    ∃ rest, msg = name ++ " " ++ rest :=
  ⟨tail, by rw [← h, String.append_assoc]⟩

/-- C17: every failure of `NoGroupByHaving`, `MustContainFrom`,
`PlainColumnSelect`, `FeaturesLabelSelect` and `ScoreLabelSelect` has a message
that begins with the name argument followed by a space. -/
theorem failure_message_starts_with_name (query : InputQuery) (name msg : String) :
    (NoGroupByHaving query name = .error msg → ∃ rest, msg = name ++ " " ++ rest) ∧
      (MustContainFrom query name = .error msg → ∃ rest, msg = name ++ " " ++ rest) ∧
      (PlainColumnSelect query name = .error msg → ∃ rest, msg = name ++ " " ++ rest) ∧
      (FeaturesLabelSelect query name = .error msg → ∃ rest, msg = name ++ " " ++ rest) ∧
      (ScoreLabelSelect query name = .error msg → ∃ rest, msg = name ++ " " ++ rest) := by
  refine ⟨?_, ?_, ?_, ?_, ?_⟩
  · intro h
    unfold NoGroupByHaving at h
    split at h
    · split at h
      · injection h with h
        exact name_space_tail name "does not support groupBy clause" msg h
      · split at h
        · injection h with h
          exact name_space_tail name "does not support having clause" msg h
        · cases h
    · cases h
  · intro h
    unfold MustContainFrom at h
    split at h
    · injection h with h
      exact name_space_tail name "must contain a FROM clause" msg h
    · cases h
  · intro h
    cases hstm : query.stm with
    | none => simp [PlainColumnSelect, hstm] at h
    | some stm =>
      simp only [PlainColumnSelect, hstm] at h
      obtain ⟨pre, c, post, _, _, _, hmsg⟩ := PlainColumnSelect.loop_error_split name _ msg h
      rw [hmsg]
      exact name_space_prefix name "only accepts wildcard and column names at " c.surface
  · intro h
    unfold FeaturesLabelSelect at h
    split at h
    · injection h with h
      exact name_space_tail name "expects a row named 'features' and a scalar named 'label'" msg h
    · cases h
  · intro h
    unfold ScoreLabelSelect at h
    split at h
    · injection h with h
      exact name_space_tail name "expects a scalar named 'score' and a scalar named 'label'" msg h
    · cases h

/-- Witness of C17: the failure of `MustContainFrom` on a query without
statement, for the name "cfg". -/
theorem failure_message_starts_with_name_witness :
    ∃ rest, "cfg must contain a FROM clause" = "cfg" ++ " " ++ rest :=
  (failure_message_starts_with_name { stm := none } "cfg" "cfg must contain a FROM clause").2.1
    rfl

/-! ## The name cited by `validateQuery`, and prefix stability -/

/-- C18: the name `validateQuery` hands to a predicate is `ConfigType::name`, not
the bound field's: when two fields of a config hold equal values, binding the
same predicates to the one or to the other gives identical outcomes, failure
messages included. -/
theorem validateQuery_field_indistinguishable {ConfigType FieldType W : Type}
    [ConfigName ConfigType] (f1 f2 : ConfigType → FieldType) (cfg : ConfigType)
    (P : Constraint FieldType W) (Ps : List (Constraint FieldType W)) (w : W)
    (heq : f1 cfg = f2 cfg) :
    validateQuery f1 P [] cfg w = P (f1 cfg) (ConfigName.name ConfigType) w ∧
      validateQuery f1 P [] cfg w = validateQuery f2 P [] cfg w ∧
      validateQuery f1 P Ps cfg w = validateQuery f2 P Ps cfg w := by
  refine ⟨rfl, ?_, ?_⟩
  · rw [validateQuery_eq_applyInOrder, validateQuery_eq_applyInOrder, heq]
  · rw [validateQuery_eq_applyInOrder, validateQuery_eq_applyInOrder, heq]

/-- Witness of C18: both fields of the example config hold `SELECT *, a, b FROM t`;
`FeaturesLabelSelect` bound to either fails with the same message, which names
the config type. -/
theorem validateQuery_field_indistinguishable_witness :
    validateQuery ExampleConfig.trainingData (pureConstraint FeaturesLabelSelect) []
        exampleConfig () =
      (.error "classifier.train expects a row named 'features' and a scalar named 'label'",
        ()) ∧
    validateQuery ExampleConfig.testingData (pureConstraint FeaturesLabelSelect) []
        exampleConfig () =
      (.error "classifier.train expects a row named 'features' and a scalar named 'label'",
        ()) :=
  ⟨rfl, (validateQuery_field_indistinguishable ExampleConfig.trainingData
    ExampleConfig.testingData exampleConfig (pureConstraint FeaturesLabelSelect) [] ()
    rfl).2.1.symm.trans rfl⟩

theorem PlainColumnSelect.loop_append (name : String) (l1 l2 : List SqlRowExpression) :
    PlainColumnSelect.loop name (l1 ++ l2) =
      match PlainColumnSelect.loop name l1 with
      | .error e => .error e
      | .ok _ => PlainColumnSelect.loop name l2 := by
  induction l1 with
  | nil => rfl
  | cons c rest ih =>
    by_cases hc : PlainColumnSelect.continues c = true
    · simp only [List.cons_append, PlainColumnSelect.loop, hc, if_true]
      exact ih
    · simp [PlainColumnSelect.loop, hc]

/-- C19: `PlainColumnSelect` is prefix-stable over the select list: it succeeds on
`l1 ++ l2` exactly when it succeeds on `l1` and on `l2`; a failure on `l1` is the
failure on `l1 ++ l2`, with the same message; and after a success on `l1` the
outcome on `l1 ++ l2` is the outcome on `l2`. -/
theorem PlainColumnSelect_prefix_stable (stm : SelectStatement)
    (l1 l2 : List SqlRowExpression) (name : String) :
    (PlainColumnSelect (withClauses stm (l1 ++ l2)) name = .ok () ↔
        PlainColumnSelect (withClauses stm l1) name = .ok () ∧
          PlainColumnSelect (withClauses stm l2) name = .ok ()) ∧
      (∀ msg, PlainColumnSelect (withClauses stm l1) name = .error msg →
        PlainColumnSelect (withClauses stm (l1 ++ l2)) name = .error msg) ∧
      (PlainColumnSelect (withClauses stm l1) name = .ok () →
        PlainColumnSelect (withClauses stm (l1 ++ l2)) name =
          PlainColumnSelect (withClauses stm l2) name) := by
  have happ := PlainColumnSelect.loop_append name l1 l2
  simp only [PlainColumnSelect, withClauses]
  cases h1 : PlainColumnSelect.loop name l1 with
  | error e =>
    rw [h1] at happ
    simp only [happ]
    simp
  | ok u =>
    rw [h1] at happ
    simp only [happ]
    simp

/-- Witness of C19: the failure on the prefix `x, a + b AS s` is the failure on
the list extended by `c * 2 AS d`. -/
theorem PlainColumnSelect_prefix_stable_witness :
    PlainColumnSelect
        (withClauses stmStarAB
          ([mkComputed "x" "x" .ReadVariableExpression "x",
              mkComputed "a + b AS s" "s" .Unclassified "a + b"] ++
            [mkComputed "c * 2 AS d" "d" .Unclassified "c * 2"]))
        "cfg" = .error "cfg only accepts wildcard and column names at a + b AS s" :=
  (PlainColumnSelect_prefix_stable stmStarAB
    [mkComputed "x" "x" .ReadVariableExpression "x",
      mkComputed "a + b AS s" "s" .Unclassified "a + b"]
    [mkComputed "c * 2 AS d" "d" .Unclassified "c * 2"] "cfg").2.1
    "cfg only accepts wildcard and column names at a + b AS s" rfl

end MLDB
